import Mathlib

/-!
Verification of the k6 extract: the reservation-capable event loop
(src/js/eventloop.go) and the threshold expression evaluator
(src/stats/thresholds.go) with its parser-combinator grammar.

The Go code is shallowly embedded: structs become structures, methods become
pure functions with explicit state passing, `float64` metric values become
rationals (the threshold grammar only produces finite decimal literals, on
which rational and IEEE comparison agree), and work items of the event loop
are opaque identifiers.  Concurrency is modelled by composing the
lock-protected atomic sections explicitly; the cancellation context is a
monotone boolean schedule over the successive `select`-on-done checks.
-/

namespace K6

/-- State of the event loop (src/js/eventloop.go, `struct eventLoop`).
Work items are opaque and named by naturals.  `wakeupCh` records whether a
signal is pending in the single-slot wakeup channel. -/
structure EventLoop where
  queue : List Nat
  started : Nat
  reservedCount : Int
  wakeupCh : Bool
deriving DecidableEq

/-- `newEventLoop`: empty queue, generation 0, no reservations, empty channel. -/
def newEventLoop : EventLoop := ⟨[], 0, 0, false⟩

/-- `eventLoop.wakeup`: non-blocking send on the single-slot channel; a second
signal coalesces with a pending one. -/
def EventLoop.wakeup (e : EventLoop) : EventLoop := { e with wakeupCh := true }

/-- `eventLoop.reserve`: under the lock, increment `reservedCount` and snapshot
the current generation.  Returns the new state and the snapshot captured by
the returned commit closure. -/
def EventLoop.reserve (e : EventLoop) : EventLoop × Nat :=
  ({ e with reservedCount := e.reservedCount + 1 }, e.started)

/-- The closure returned by `eventLoop.reserve`, applied to a work item `f`:
if the captured generation differs from the current one it refuses; otherwise
it appends `f` to the queue, decrements `reservedCount` and signals `wakeup`.
Returns the boolean result and the new state. -/
def EventLoop.commit (e : EventLoop) (started : Nat) (f : Nat) : Bool × EventLoop :=
  if started ≠ e.started then (false, e)
  else
    (true, EventLoop.wakeup
      { e with queue := e.queue ++ [f], reservedCount := e.reservedCount - 1 })

/-- The prologue of `eventLoop.start`: increment the generation, reset
`reservedCount` to 0 and append the seed to the queue. -/
def startProlog (e : EventLoop) (f : Nat) : EventLoop :=
  { e with started := e.started + 1, reservedCount := 0, queue := e.queue ++ [f] }

/-- The inner `for _, f := range queue` loop of `eventLoop.start`: before each
item a `select` checks the done channel (one check per time tick); on
cancellation the remaining items of the acquired batch are dropped.  Returns
the executed items, the next time tick and whether cancellation was observed. -/
def runBatch (done : Nat → Bool) : Nat → List Nat → List Nat × Nat × Bool
  | t, [] => ([], t, false)
  | t, f :: rest =>
    if done t then ([], t + 1, true)
    else
      let r := runBatch done (t + 1) rest
      (f :: r.1, r.2)

/-- Outcome of one iteration of the outer `for` loop of `eventLoop.start`:
either the loop returns, or it continues with a new state and time, or it is
blocked waiting on the wakeup channel with no signal pending. -/
inductive IterOutcome where
  | ret (e : EventLoop) (executed : List Nat) (t : Nat)
  | next (e : EventLoop) (executed : List Nat) (t : Nat)
  | blocked (e : EventLoop) (t : Nat)
deriving DecidableEq

/-- One iteration of the outer loop of `eventLoop.start`: check the done
channel; acquire the queue (swap it for an empty one) and capture whether
`reservedCount` is non-zero; if the batch is empty either return (nothing
reserved) or wait for cancellation or wakeup; otherwise run the batch through
`runBatch`. -/
def startIter (done : Nat → Bool) (t : Nat) (e : EventLoop) : IterOutcome :=
  if done t then .ret e [] (t + 1)
  else
    let batch := e.queue
    let reserved := e.reservedCount != 0
    let e1 : EventLoop := { e with queue := [] }
    if batch.isEmpty then
      if !reserved then .ret e1 [] (t + 1)
      else if done (t + 1) then .ret e1 [] (t + 2)
      else if e1.wakeupCh then .next { e1 with wakeupCh := false } [] (t + 2)
      else .blocked e1 (t + 2)
    else
      let r := runBatch done (t + 1) batch
      if r.2.2 then .ret e1 r.1 r.2.1 else .next e1 r.1 r.2.1

/-- Iterate `startIter` with fuel (the Go loop has no bound; `none` means the
fuel ran out or the loop blocked on the wakeup channel with no producer in
this interleaving).  On return, yields the final state and the executed items
in order. -/
def startSteps (done : Nat → Bool) : Nat → Nat → EventLoop → Option (EventLoop × List Nat)
  | 0, _, _ => none
  | fuel + 1, t, e =>
    match startIter done t e with
    | .ret e1 ex _ => some (e1, ex)
    | .next e1 ex t1 => (startSteps done fuel t1 e1).map fun r => (r.1, ex ++ r.2)
    | .blocked _ _ => none

/-- `eventLoop.start(ctx, f)`: prologue, then the outer loop, with no external
producer interleaved.  `done` is the cancellation schedule over successive
done-channel checks. -/
def EventLoop.start (done : Nat → Bool) (fuel : Nat) (e : EventLoop) (f : Nat) :
    Option (EventLoop × List Nat) :=
  startSteps done fuel 0 (startProlog e f)

/-- The cancellation schedule that becomes observable at check `n`. -/
def doneAfter (n : Nat) : Nat → Bool := fun t => n ≤ t

/-- The cancellation schedule of a context that is never cancelled. -/
def neverDone : Nat → Bool := fun _ => false

/-- On a schedule that never cancels, a batch runs to completion in order. -/
theorem runBatch_of_never (done : Nat → Bool) (h : ∀ u, done u = false) :
    ∀ (t : Nat) (l : List Nat), runBatch done t l = (l, t + l.length, false) := by
  intro t l
  induction l generalizing t with
  | nil => simp [runBatch]
  | cons f rest ih =>
    simp only [runBatch, h, Bool.false_eq_true, if_false, ih (t + 1), List.length_cons,
      Prod.mk.injEq, true_and, and_true]
    omega

/-- The executed items of a batch always form a prefix of the batch: an item
either runs to completion or is never started. -/
theorem runBatch_isPrefix (done : Nat → Bool) :
    ∀ (t : Nat) (l : List Nat),
      (runBatch done t l).1 = l.take (runBatch done t l).1.length := by
  intro t l
  induction l generalizing t with
  | nil => simp [runBatch]
  | cons f rest ih =>
    by_cases hd : done t
    · simp [runBatch, hd]
    · simp only [runBatch, hd, if_false, List.length_cons, List.take_succ_cons]
      exact congrArg (f :: ·) (ih (t + 1))

/-- If cancellation is observable at the check preceding item `k` (the done
schedule being monotone), at most the first `k` items of the batch run. -/
theorem runBatch_length_le (done : Nat → Bool)
    (hmono : ∀ a b : Nat, a ≤ b → done a = true → done b = true) :
    ∀ (t k : Nat) (l : List Nat), done (t + k) = true →
      (runBatch done t l).1.length ≤ k := by
  intro t k l
  induction l generalizing t k with
  | nil => intro _; simp [runBatch]
  | cons f rest ih =>
    intro hk
    by_cases hd : done t
    · simp [runBatch, hd]
    · have hkpos : k ≠ 0 := by
        intro h0
        rw [h0, Nat.add_zero] at hk
        exact hd hk
      obtain ⟨k1, rfl⟩ := Nat.exists_eq_succ_of_ne_zero hkpos
      simp only [runBatch, hd, if_false, List.length_cons]
      have : done (t + 1 + k1) = true := by
        have : t + 1 + k1 = t + (k1 + 1) := by omega
        rw [this]; exact hk
      exact Nat.succ_le_succ (ih (t + 1) k1 this)

/-- C5: cancellation property of the task loop.  For the batch acquired by an
iteration of `eventLoop.start` (run by `runBatch` inside `startIter`), if the
monotone cancellation schedule is observable at the done-check preceding item
`k`, then the executed items are a prefix of the batch of length at most `k`:
items `k` through `N-1` of the acquired batch are not executed.  Items appear
in the executed list whole or not at all — a started item is atomic in this
embedding, matching the code, where cancellation is only checked between
items and never interrupts a running item. -/
theorem runBatch_cancellation (done : Nat → Bool) (t k : Nat) (batch : List Nat)
    (hmono : ∀ a b : Nat, a ≤ b → done a = true → done b = true)
    (hk : done (t + k) = true) :
    (runBatch done t batch).1 = batch.take (runBatch done t batch).1.length ∧
      (runBatch done t batch).1.length ≤ k :=
  ⟨runBatch_isPrefix done t batch, runBatch_length_le done hmono t k batch hk⟩

/-- Witness for C5 at a concrete schedule (cancellation observable from check
2 on) and batch `[5, 6, 7]`: only the first two items run. -/
theorem runBatch_cancellation_witness :
    (∀ a b : Nat, a ≤ b → doneAfter 2 a = true → doneAfter 2 b = true) ∧
      doneAfter 2 (0 + 2) = true ∧
      ((runBatch (doneAfter 2) 0 [5, 6, 7]).1 =
          [5, 6, 7].take (runBatch (doneAfter 2) 0 [5, 6, 7]).1.length ∧
        (runBatch (doneAfter 2) 0 [5, 6, 7]).1.length ≤ 2) := by
  have hmono : ∀ a b : Nat, a ≤ b → doneAfter 2 a = true → doneAfter 2 b = true := by
    intro a b hab ha
    simp only [doneAfter, decide_eq_true_eq] at *
    omega
  exact ⟨hmono, by decide, runBatch_cancellation (doneAfter 2) 0 2 [5, 6, 7] hmono (by decide)⟩

/-- Draining run: on a never-cancelled schedule, a state with a non-empty
queue and no reservations runs its whole queue once and then returns with an
empty queue. -/
theorem startSteps_drain (done : Nat → Bool) (h : ∀ u, done u = false)
    (fuel t : Nat) (e : EventLoop) (hq : e.queue ≠ []) (hr : e.reservedCount = 0) :
    startSteps done (fuel + 2) t e = some ({ e with queue := [] }, e.queue) := by
  have h1 : startIter done t e =
      IterOutcome.next { e with queue := [] } e.queue (t + 1 + e.queue.length) := by
    simp only [startIter, h, Bool.false_eq_true, if_false, runBatch_of_never done h,
      List.isEmpty_iff]
    rw [if_neg hq]
  have h2 : startIter done (t + 1 + e.queue.length) ({ e with queue := [] } : EventLoop) =
      IterOutcome.ret { e with queue := [] } [] (t + 1 + e.queue.length + 1) := by
    simp [startIter, h, hr]
  rw [show fuel + 2 = (fuel + 1) + 1 by rfl]
  simp only [startSteps, h1, h2, Option.map_some]
  simp

/-- C10: if the cancellation context is already done when `start(ctx, seed)`
is called, `start` returns without executing any work item, but its prologue
has already appended the seed to the queue, where it remains; the next call
to `start` on the same loop (with an un-cancelled context) executes that
leftover seed before its own seed. -/
theorem start_on_cancelled_context_leaves_seed (done done2 : Nat → Bool)
    (e : EventLoop) (s1 s2 : Nat) (fuel fuel2 : Nat)
    (h0 : done 0 = true) (h2 : ∀ t, done2 t = false) :
    EventLoop.start done (fuel + 1) e s1 = some (startProlog e s1, []) ∧
      (startProlog e s1).queue = e.queue ++ [s1] ∧
      EventLoop.start done2 (fuel2 + 2) (startProlog e s1) s2 =
        some (⟨[], e.started + 2, 0, e.wakeupCh⟩, (e.queue ++ [s1]) ++ [s2]) := by
  refine ⟨?_, rfl, ?_⟩
  · simp [EventLoop.start, startSteps, startIter, h0]
  · have hq : (startProlog (startProlog e s1) s2).queue ≠ [] := by
      simp [startProlog]
    have hr : (startProlog (startProlog e s1) s2).reservedCount = 0 := rfl
    rw [EventLoop.start, startSteps_drain done2 h2 fuel2 0 _ hq hr]
    rfl

/-- Witness for C10 on a fresh loop: the first start (context already done)
executes nothing and leaves seed 3 queued; the next start executes 3 before
its own seed 4. -/
theorem start_on_cancelled_context_leaves_seed_witness :
    ((fun _ : Nat => true) 0 = true) ∧ (∀ t, neverDone t = false) ∧
      (EventLoop.start (fun _ => true) 1 newEventLoop 3 =
          some (startProlog newEventLoop 3, []) ∧
        (startProlog newEventLoop 3).queue = newEventLoop.queue ++ [3] ∧
        EventLoop.start neverDone 2 (startProlog newEventLoop 3) 4 =
          some (⟨[], newEventLoop.started + 2, 0, newEventLoop.wakeupCh⟩,
            (newEventLoop.queue ++ [3]) ++ [4])) :=
  ⟨rfl, fun _ => rfl,
    start_on_cancelled_context_leaves_seed (fun _ => true) neverDone
      newEventLoop 3 4 0 0 rfl (fun _ => rfl)⟩

/-- C1: the generation scoping the claim describes does not hold in the code.
Failing trace, each line an atomic lock-protected section of
src/js/eventloop.go: a fresh loop starts generation 1 with seed 1 and a
cancellation context whose done channel becomes ready at check 2; the first
iteration runs the seed; a producer then calls `reserve`, capturing
generation 1; the next iteration observes cancellation and `start` returns
with the reservation still uncommitted.  The loop's `started` counter is
still 1, so invoking the reservation's commit with item 42 compares 1 = 1,
returns `true` and enqueues 42 — contradicting both the claim and the code's
own comment that after `start` returns a reserved function will not be
queued.  The next `start` (generation 2) then executes the stale item 42,
so a work item enqueued under generation 1 runs during generation 2. -/
theorem commit_after_start_return_still_enqueues :
    startIter (doneAfter 2) 0 (startProlog newEventLoop 1) =
        IterOutcome.next ⟨[], 1, 0, false⟩ [1] 2 ∧
      EventLoop.reserve ⟨[], 1, 0, false⟩ = (⟨[], 1, 1, false⟩, 1) ∧
      startIter (doneAfter 2) 2 ⟨[], 1, 1, false⟩ =
        IterOutcome.ret ⟨[], 1, 1, false⟩ [] 3 ∧
      EventLoop.commit ⟨[], 1, 1, false⟩ 1 42 = (true, ⟨[42], 1, 0, true⟩) ∧
      EventLoop.start neverDone 2 ⟨[42], 1, 0, true⟩ 7 =
        some (⟨[], 2, 0, true⟩, [42, 7]) := by
  decide

/-!
The parser-combinator toolkit.  Its implementation file is not part of the
repository extract (only src/pkg/combinators/combinators_test.go is), so the
combinators are modelled from the spec (section 4.2) and checked against the
behaviour pinned down by that test file.  Go's untyped `interface` payloads
become the tagged `PValue`; float64 payloads become exact rationals, on which
the finite decimal literals of the grammar and their comparisons coincide
with IEEE doubles.
-/

/-- Modelled from the spec: the payload of a combinators `Result` (the
implementation of src/pkg/combinators is missing from the extract).  `none`
is the Go nil payload produced by `DiscardAll`. -/
inductive PValue where
  | none
  | str (s : String)
  | rune (c : Char)
  | num (v : Rat)
  | seq (vs : List PValue)

/-- Modelled from the spec: a combinators `Error`, carrying the remaining
input at the failure point and the expected token descriptions. -/
structure ParseError where
  input : List Char
  expected : List String
deriving DecidableEq

/-- Modelled from the spec: a combinators `Result` — either a success
(`err` is none, `payload` set, `remaining` the unconsumed runes) or a
failure (`err` set, `remaining` the input). -/
structure PResult where
  payload : PValue
  remaining : List Char
  err : Option ParseError

/-- Modelled from the spec: a `Parser` maps a rune sequence to a `Result`. -/
def Parser : Type := List Char → PResult

/-- Modelled from the spec: combinators.Success. -/
def success (p : PValue) (rem : List Char) : PResult := ⟨p, rem, Option.none⟩

/-- Modelled from the spec: combinators.Failure with the given expectations. -/
def failure (input : List Char) (expected : List String) : PResult :=
  ⟨PValue.none, input, some ⟨input, expected⟩⟩

/-- Modelled from the spec: combinators.Tag — matches exactly the literal
string `s` at the head of the input, with `s` as payload. -/
def Tag (s : String) : Parser := fun input =>
  if s.toList.isPrefixOf input then
    success (PValue.str s) (input.drop s.toList.length)
  else failure input [s]

/-- Modelled from the spec: combinators.Char — matches exactly the rune `c`,
payload the single-character string. -/
def Chr (c : Char) : Parser := fun input =>
  match input with
  | c1 :: rest =>
    if c1 = c then success (PValue.str (String.mk [c])) rest
    else failure input [String.mk [c]]
  | [] => failure input [String.mk [c]]

/-- Modelled from the spec: combinators.TakeWhileOneOf — longest non-empty
head run of runes from the set, as a string; zero matches fail. -/
def TakeWhileOneOf (cs : List Char) : Parser := fun input =>
  let taken := input.takeWhile (fun c => cs.contains c)
  if taken.isEmpty then failure input [String.mk cs]
  else success (PValue.str (String.mk taken)) (input.dropWhile (fun c => cs.contains c))

/-- Modelled from the spec: combinators.Whitespace — one or more spaces or
tabs, concatenated. -/
def Whitespace : Parser := TakeWhileOneOf [' ', '\t']

/-- Helper of `Alternative`: try each parser on the same input, accumulating
the expectations of the failed ones. -/
def altAux : List Parser → List Char → List String → PResult
  | [], input, exp => failure input exp
  | p :: rest, input, exp =>
    let r := p input
    match r.err with
    | Option.none => r
    | some e => altAux rest input (exp ++ e.expected)

/-- Modelled from the spec: combinators.Alternative — the first alternative
that succeeds on the same input wins; on total failure the expectations are
the union of the children's. -/
def Alternative (ps : List Parser) : Parser := fun input => altAux ps input []

/-- Modelled from the spec: combinators.Newline — CRLF or LF, in that
priority order, payload the matched string. -/
def Newline : Parser := Alternative [Tag "\r\n", Tag "\n"]

/-- Helper of `Sequence`: run the parsers left to right on the residual
remainder, collecting the non-nil payloads; stop at the first failure. -/
def seqAux : List Parser → List Char → List PValue →
    Option ParseError × List PValue × List Char
  | [], rem, acc => (Option.none, acc, rem)
  | p :: rest, rem, acc =>
    let r := p rem
    match r.err with
    | some e => (some e, acc, rem)
    | Option.none =>
      match r.payload with
      | PValue.none => seqAux rest r.remaining acc
      | v => seqAux rest r.remaining (acc ++ [v])

/-- Modelled from the spec: combinators.Sequence — all children in order; the
payload is the ordered sequence of their non-nil payloads (the combinators
test file shows nil payloads of `DiscardAll` are skipped); on any failure the
child's error surfaces with the remaining input reset to the original. -/
def Sequence (ps : List Parser) : Parser := fun input =>
  let r := seqAux ps input []
  match r.1 with
  | some e => { payload := PValue.none, remaining := input, err := some e }
  | Option.none => success (PValue.seq r.2.1) r.2.2

/-- Modelled from the spec: combinators.Expect — on failure, replace the
expectations with the single label, preserving the error input. -/
def Expect (p : Parser) (label : String) : Parser := fun input =>
  let r := p input
  match r.err with
  | Option.none => r
  | some e => { r with err := some { e with expected := [label] } }

/-- Helper of `DiscardAll`: iterate while the parser succeeds and consumes
input (every parser `DiscardAll` is applied to consumes on success); the fuel
bounds the recursion by the input length. -/
def discardAllAux (p : Parser) : Nat → List Char → List Char
  | 0, input => input
  | fuel + 1, input =>
    let r := p input
    match r.err with
    | some _ => input
    | Option.none =>
      if r.remaining.length < input.length then discardAllAux p fuel r.remaining
      else input

/-- Modelled from the spec: combinators.DiscardAll — run `p` zero or more
times, discarding the payloads; never fails. -/
def DiscardAll (p : Parser) : Parser := fun input =>
  success PValue.none (discardAllAux p (input.length + 1) input)

/-- Numeric value of a decimal digit rune. -/
def digitVal (c : Char) : Nat := c.toNat - 48

/-- Modelled from the spec: combinators.Float — `digit+ ('.' digit+)?` with a
leading minus sign accepted only when immediately followed by digits; the
float64 payload is modelled as an exact rational. -/
def Float : Parser := fun input =>
  let core := fun (rest : List Char) (neg : Bool) =>
    let ds := rest.takeWhile Char.isDigit
    let rest1 := rest.dropWhile Char.isDigit
    if ds.isEmpty then failure input ["float"]
    else
      let ip : Nat := ds.foldl (fun acc c => 10 * acc + digitVal c) 0
      let res := fun (v : Rat) (rem : List Char) =>
        success (PValue.num (if neg then -v else v)) rem
      match rest1 with
      | '.' :: rest2 =>
        let fs := rest2.takeWhile Char.isDigit
        if fs.isEmpty then res (ip : Rat) rest1
        else
          let fp : Nat := fs.foldl (fun acc c => 10 * acc + digitVal c) 0
          res ((ip : Rat) + (fp : Rat) / (10 : Rat) ^ fs.length)
            (rest2.dropWhile Char.isDigit)
      | _ => res (ip : Rat) rest1
  match input with
  | '-' :: rest => core rest true
  | _ => core input false

/-- Decimal digit runes of `n`, most significant first. -/
def natChars (n : Nat) : List Char :=
  if n = 0 then ['0'] else ((Nat.digits 10 n).map Nat.digitChar).reverse

/-- Least number of decimal places of `q`, searched with fuel. -/
def decimalsAux (q : Rat) : Nat → Nat → Nat
  | 0, k => k
  | fuel + 1, k =>
    if (q * (10 : Rat) ^ k).den = 1 then k else decimalsAux q fuel (k + 1)

/-- Number of decimal places of a rational with finite decimal expansion. -/
def decimals (q : Rat) : Nat := decimalsAux q q.den 0

/-- Shortest plain decimal rendering of a rational with a finite decimal
expansion: the `%g` formatting ParsePercentile applies to its float64 (no
exponent form is ever needed for the values the grammar produces). -/
def ratDecimalString (q : Rat) : String :=
  let k := decimals q
  let m := (q * (10 : Rat) ^ k).num
  let sign : List Char := if m < 0 then ['-'] else []
  let ds := natChars m.natAbs
  let padded := if ds.length ≤ k then List.replicate (k + 1 - ds.length) '0' ++ ds else ds
  if k = 0 then String.mk (sign ++ padded)
  else String.mk (sign ++ padded.take (padded.length - k) ++
    '.' :: padded.drop (padded.length - k))

/-!
The grammar layer, embedded from the source (the parser file of src/stats).
Each Go constructor wraps its parser in a closure that forwards failures and
re-packs successes as `Success(payload, remaining)`, which is the identity on
our `Result`; the wrappers are therefore elided except where they transform
the payload (`ParsePercentile`, which re-formats, and `ParseOperator`, whose
string cast cannot fail).
-/

/-- src ParsePercentile: `Expect(Sequence(Tag "p(", Float, Char ')'),
"percentile")`, the payload re-formatted as `p(<float>)` with `%g`.  The
fatal-error branch of the Go wrapper guards an impossible cast and is
unreachable in this typed embedding. -/
def ParsePercentile : Parser := fun input =>
  let r := Expect (Sequence [Tag "p(", Float, Chr ')']) "percentile" input
  match r.err with
  | some _ => r
  | Option.none =>
    match r.payload with
    | PValue.seq [PValue.str a, PValue.num v, PValue.str b] =>
      success (PValue.str (a ++ ratDecimalString v ++ b)) r.remaining
    | _ => r

/-- src ParseOperator: the ordered alternatives `>=`, `<=`, `>`, `<`, `===`,
`==`, `!=`, wrapped in `Expect(·, "operator")`. -/
def ParseOperator : Parser :=
  Expect (Alternative [Tag ">=", Tag "<=", Tag ">", Tag "<",
    Tag "===", Tag "==", Tag "!="]) "operator"

/-- src ParseTrend: `mean | min | max | avg | med | percentile`. -/
def ParseTrend : Parser :=
  Expect (Alternative [Tag "mean", Tag "min", Tag "max", Tag "avg", Tag "med",
    ParsePercentile]) "trend aggregation method"

/-- src ParseRate: the literal `rate`. -/
def ParseRate : Parser := Expect (Tag "rate") "rate aggregation method"

/-- src ParseGauge: the literal `value`. -/
def ParseGauge : Parser :=
  Expect (Alternative [Tag "value"]) "gauge aggregation method"

/-- src ParseCounter: `count | rate`. -/
def ParseCounter : Parser :=
  Expect (Alternative [Tag "count", Tag "rate"]) "counter aggregation method"

/-- src ParseValue: a float, expected as a numerical value. -/
def ParseValue : Parser := Expect Float "numerical value"

/-- src ParseAggregationMethod: `counter | gauge | rate | trend | percentile`,
in that order. -/
def ParseAggregationMethod : Parser :=
  Expect (Alternative [ParseCounter, ParseGauge, ParseRate, ParseTrend,
    ParsePercentile]) "aggregation method"

/-- src ParseAssertion:
`aggregation_method whitespace* operator whitespace* float newline*`. -/
def ParseAssertion : Parser :=
  Sequence [ParseAggregationMethod, DiscardAll Whitespace, ParseOperator,
    DiscardAll Whitespace, ParseValue, DiscardAll Newline]

/-!
The evaluator and policy layer, embedded from src/stats/thresholds.go.
Errors become structured values or brief strings; the Go code wraps the same
data in fmt.Errorf messages, whose wording the claims never inspect.
-/

/-- Modelled from the spec: go.k6.io/k6/lib/types NullDuration (its
implementation is not in the extract): a nullable duration in int64
nanoseconds. -/
structure NullDuration where
  duration : Int
  valid : Bool
deriving DecidableEq

/-- src thresholdCondition: aggregation method, operator and float64 value. -/
structure thresholdCondition where
  AggregationMethod : String
  Operator : String
  Value : Rat
deriving DecidableEq

/-- src parseThresholdCondition: run ParseAssertion, reject parser failures,
check the payload is a slice of three components and unpack them. -/
def parseThresholdCondition (expression : String) : Except String thresholdCondition :=
  let result := ParseAssertion expression.toList
  match result.err with
  | some _ => .error "parsing threshold condition failed: the parser failed"
  | Option.none =>
    match result.payload with
    | PValue.seq [p0, p1, p2] =>
      match p0, p1, p2 with
      | PValue.str method, PValue.str operator, PValue.num value =>
        .ok ⟨method, operator, value⟩
      | _, _, _ => .error "unable to cast a parsed expression component"
    | PValue.seq _ => .error "parsed expression tokens, expected 3"
    | _ => .error "unable to cast the parsed expression to a slice"

/-- src Threshold: one threshold for a single metric. -/
structure Threshold where
  Source : String
  LastFailed : Bool
  AbortOnFail : Bool
  AbortGracePeriod : NullDuration
  parsed : thresholdCondition
deriving DecidableEq

/-- src newThreshold: parse the source; on success the threshold starts with
`LastFailed = false`. -/
def newThreshold (src : String) (abortOnFail : Bool) (gracePeriod : NullDuration) :
    Except String Threshold :=
  match parseThresholdCondition src with
  | .error e => .error e
  | .ok condition => .ok ⟨src, false, abortOnFail, gracePeriod, condition⟩

/-- Evaluation errors of src Threshold.runNoTaint, as structured values. -/
inductive ThresholdError where
  | metricMissing (aggregationMethod : String)
  | invalidOperator (source operator : String)
deriving DecidableEq

/-- src Threshold.runNoTaint: look the aggregation method up in the sinks
(an association list standing for the Go map) and apply the operator; a
missing metric or an operator outside the seven parsed ones fails with the
pass result false.  No field of the threshold is touched. -/
def Threshold.runNoTaint (t : Threshold) (sinks : List (String × Rat)) :
    Bool × Option ThresholdError :=
  match sinks.lookup t.parsed.AggregationMethod with
  | Option.none => (false, some (.metricMissing t.parsed.AggregationMethod))
  | some lhs =>
    if t.parsed.Operator = ">" then (decide (lhs > t.parsed.Value), Option.none)
    else if t.parsed.Operator = ">=" then (decide (lhs ≥ t.parsed.Value), Option.none)
    else if t.parsed.Operator = "<=" then (decide (lhs ≤ t.parsed.Value), Option.none)
    else if t.parsed.Operator = "<" then (decide (lhs < t.parsed.Value), Option.none)
    else if t.parsed.Operator = "==" then (decide (lhs = t.parsed.Value), Option.none)
    else if t.parsed.Operator = "===" then
      -- the code notes a sink always maps to float64 values, so strictly
      -- equal is implemented exactly as loosely equal
      (decide (lhs = t.parsed.Value), Option.none)
    else if t.parsed.Operator = "!=" then (decide (lhs ≠ t.parsed.Value), Option.none)
    else (false, some (.invalidOperator t.Source t.parsed.Operator))

/-- src Threshold.run: the runNoTaint result, with `LastFailed` set to the
negated pass result on the returned threshold state. -/
def Threshold.run (t : Threshold) (sinks : List (String × Rat)) :
    Bool × Option ThresholdError × Threshold :=
  let r := t.runNoTaint sinks
  (r.1, r.2, { t with LastFailed := !r.1 })

/-- src thresholdConfig: the JSON form of one threshold (tags threshold,
abortOnFail, delayAbortEval). -/
structure thresholdConfig where
  Threshold : String
  AbortOnFail : Bool
  AbortGracePeriod : NullDuration
deriving DecidableEq

/-- The zero value encoding/json starts from when decoding a config. -/
def zeroConfig : thresholdConfig := ⟨"", false, ⟨0, false⟩⟩

/-- Modelled from the spec: the JSON values the thresholds surface handles
(encoding/json is not part of the extract). -/
inductive Json where
  | null
  | bool (b : Bool)
  | num (q : Rat)
  | str (s : String)
  | arr (elems : List Json)
  | obj (fields : List (String × Json))

/-- Interpret a run of decimal digit runes, most significant first. -/
def digitsOfChars : List Char → Option (List Nat)
  | [] => some []
  | c :: cs =>
    if 48 ≤ c.toNat ∧ c.toNat ≤ 57 then
      match digitsOfChars cs with
      | some ds => some ((c.toNat - 48) :: ds)
      | Option.none => Option.none
    else Option.none

/-- Parse a non-empty run of decimal digit runes as a natural number. -/
def parseNatChars (cs : List Char) : Option Nat :=
  if cs.isEmpty then Option.none
  else
    match digitsOfChars cs with
    | some ds => some (Nat.ofDigits 10 ds.reverse)
    | Option.none => Option.none

/-- Modelled from the spec: the canonical duration string of `d` nanoseconds.
The nullable-duration string codec of go.k6.io/k6/lib/types is not in the
extract; the spec only requires a duration string its decoder accepts and
returns unchanged through a round-trip, so the nanosecond rendering is
used. -/
def formatDuration (d : Int) : String :=
  if d < 0 then String.mk ('-' :: (natChars d.natAbs ++ "ns".toList))
  else String.mk (natChars d.natAbs ++ "ns".toList)

/-- Modelled from the spec: the duration-string decoder, inverse to
`formatDuration`. -/
def parseDuration (s : String) : Option Int :=
  let cs := s.toList
  if cs.length < 2 then Option.none
  else if cs.drop (cs.length - 2) = ['n', 's'] then
    let body := cs.take (cs.length - 2)
    if body.head? = some '-' then (parseNatChars body.tail).map (fun n => -(Int.ofNat n))
    else (parseNatChars body).map (fun n => Int.ofNat n)
  else Option.none

/-- Modelled from the spec: NullDuration JSON marshal — `null` when invalid,
the duration string otherwise. -/
def marshalNullDuration (d : NullDuration) : Json :=
  if d.valid then Json.str (formatDuration d.duration) else Json.null

/-- Modelled from the spec: NullDuration JSON unmarshal — `null` gives the
invalid (zero) duration, a duration string a valid one; anything else
fails. -/
def unmarshalNullDuration (j : Json) : Except String NullDuration :=
  match j with
  | Json.null => .ok ⟨0, false⟩
  | Json.str s =>
    match parseDuration s with
    | some d => .ok ⟨d, true⟩
    | Option.none => .error "invalid duration string"
  | _ => .error "invalid duration JSON"

/-- Modelled from the spec: encoding/json decoding of the fields of
rawThresholdConfig: unknown keys are ignored, absent keys keep the zero
value, later duplicates win, JSON null leaves a string or bool field
untouched, a wrong type fails. -/
def decodeConfigFields : List (String × Json) → thresholdConfig →
    Except String thresholdConfig
  | [], tc => .ok tc
  | (k, v) :: rest, tc =>
    if k = "threshold" then
      match v with
      | Json.str s => decodeConfigFields rest { tc with Threshold := s }
      | Json.null => decodeConfigFields rest tc
      | _ => .error "cannot unmarshal into field threshold"
    else if k = "abortOnFail" then
      match v with
      | Json.bool b => decodeConfigFields rest { tc with AbortOnFail := b }
      | Json.null => decodeConfigFields rest tc
      | _ => .error "cannot unmarshal into field abortOnFail"
    else if k = "delayAbortEval" then
      match unmarshalNullDuration v with
      | .ok d => decodeConfigFields rest { tc with AbortGracePeriod := d }
      | .error e => .error e
    else decodeConfigFields rest tc

/-- src thresholdConfig.UnmarshalJSON: first try the shortcircuit string
form (a JSON string sets the Threshold field, JSON null is a no-op, both
without error), else decode the object form as rawThresholdConfig. -/
def thresholdConfig.unmarshalJSON (data : Json) (tc : thresholdConfig) :
    Except String thresholdConfig :=
  match data with
  | Json.str s => .ok { tc with Threshold := s }
  | Json.null => .ok tc
  | Json.obj fields => decodeConfigFields fields tc
  | _ => .error "cannot unmarshal into thresholdConfig"

/-- src thresholdConfig.MarshalJSON: the bare threshold string when
AbortOnFail is false, the rawThresholdConfig object otherwise. -/
def thresholdConfig.marshalJSON (tc : thresholdConfig) : Json :=
  if tc.AbortOnFail then
    Json.obj [("threshold", Json.str tc.Threshold),
      ("abortOnFail", Json.bool tc.AbortOnFail),
      ("delayAbortEval", marshalNullDuration tc.AbortGracePeriod)]
  else Json.str tc.Threshold

/-- src Thresholds: the policy aggregate for one metric. -/
structure Thresholds where
  Thresholds : List Threshold
  Abort : Bool
  sinked : List (String × Rat)
deriving DecidableEq

/-- Helper of newThresholdsWithConfig: construct each threshold in order,
failing fast with the index of the first bad source. -/
def newThresholdsAux : List thresholdConfig → Nat → Except String (List Threshold)
  | [], _ => .ok []
  | config :: rest, i =>
    match newThreshold config.Threshold config.AbortOnFail config.AbortGracePeriod with
    | .error e => .error ("threshold " ++ toString i ++ " error: " ++ e)
    | .ok t =>
      match newThresholdsAux rest (i + 1) with
      | .error e => .error e
      | .ok ts => .ok (t :: ts)

/-- src newThresholdsWithConfig: fresh aggregates carry `Abort = false` and
an empty sink map. -/
def newThresholdsWithConfig (configs : List thresholdConfig) : Except String Thresholds :=
  match newThresholdsAux configs 0 with
  | .error e => .error e
  | .ok ts => .ok ⟨ts, false, []⟩

/-- src NewThresholds: one config per source string, all flags zero. -/
def NewThresholds (sources : List String) : Except String Thresholds :=
  newThresholdsWithConfig (sources.map (fun src => ⟨src, false, ⟨0, false⟩⟩))

/-- The loop of src Thresholds.runAll over the remaining thresholds, with
the current abort flag, conjunction so far and index: returns the updated
thresholds, the abort flag, the returned boolean and the first error (with
its index) if any.  On an error the loop returns false immediately, leaving
the later thresholds untouched; on a failed threshold the abort flag is
latched when it was not yet set, the threshold has AbortOnFail, and its
grace period is invalid or its duration is strictly below the run's. -/
def runAllAux (sinked : List (String × Rat)) (duration : Int) :
    List Threshold → Bool → Bool → Nat →
    List Threshold × Bool × Bool × Option (Nat × ThresholdError)
  | [], abort, succeeded, _ => ([], abort, succeeded, Option.none)
  | t :: rest, abort, succeeded, i =>
    let r := t.run sinked
    match r.2.1 with
    | some e => (r.2.2 :: rest, abort, false, some (i, e))
    | Option.none =>
      if r.1 then
        let res := runAllAux sinked duration rest abort succeeded (i + 1)
        (r.2.2 :: res.1, res.2)
      else
        let abort1 :=
          if abort || !t.AbortOnFail then abort
          else !t.AbortGracePeriod.valid ||
            decide (t.AbortGracePeriod.duration < duration)
        let res := runAllAux sinked duration rest abort1 false (i + 1)
        (r.2.2 :: res.1, res.2)

/-- src Thresholds.runAll: run every threshold in declaration order against
the sinked values, starting from the current abort flag with the conjunction
accumulator true. -/
def Thresholds.runAll (ts : K6.Thresholds) (duration : Int) :
    K6.Thresholds × Bool × Option (Nat × ThresholdError) :=
  let r := runAllAux ts.sinked duration ts.Thresholds ts.Abort true 0
  (⟨r.1, r.2.1, ts.sinked⟩, r.2.2)

/-- src Thresholds.Run: replace the sinked map with the formatted sink
values (the Sink is an external capability exposing Format) and delegate to
runAll. -/
def Thresholds.Run (ts : K6.Thresholds) (formatted : List (String × Rat)) (duration : Int) :
    K6.Thresholds × Bool × Option (Nat × ThresholdError) :=
  K6.Thresholds.runAll ⟨ts.Thresholds, ts.Abort, formatted⟩ duration

/-- src Thresholds.MarshalJSON: rebuild a config from each threshold's
Source, AbortOnFail and AbortGracePeriod and marshal the array. -/
def Thresholds.marshalJSON (ts : K6.Thresholds) : Json :=
  Json.arr (ts.Thresholds.map (fun t =>
    thresholdConfig.marshalJSON ⟨t.Source, t.AbortOnFail, t.AbortGracePeriod⟩))

/-- Helper: decode each array element from the zero config. -/
def decodeConfigsAux : List Json → Except String (List thresholdConfig)
  | [] => .ok []
  | j :: rest =>
    match thresholdConfig.unmarshalJSON j zeroConfig with
    | .error e => .error e
    | .ok tc =>
      match decodeConfigsAux rest with
      | .error e => .error e
      | .ok tcs => .ok (tc :: tcs)

/-- Modelled from the spec: encoding/json decoding of a JSON array into a
slice of thresholdConfig values; non-arrays fail (JSON null gives the nil
slice). -/
def decodeConfigs (data : Json) : Except String (List thresholdConfig) :=
  match data with
  | Json.arr elems => decodeConfigsAux elems
  | Json.null => .ok []
  | _ => .error "cannot unmarshal into a thresholdConfig slice"

/-- src Thresholds.UnmarshalJSON: decode the configs, construct the new
aggregate, and only on success replace the receiver; on any error the
receiver is left as it was. -/
def Thresholds.unmarshalJSON (data : Json) (ts : K6.Thresholds) :
    Option String × K6.Thresholds :=
  match decodeConfigs data with
  | .error e => (some e, ts)
  | .ok configs =>
    match newThresholdsWithConfig configs with
    | .error e => (some e, ts)
    | .ok newts => (Option.none, newts)

/-! Round-trip of the modelled duration-string codec. -/

/-- The rune of a decimal digit sits between codepoints 48 and 57. -/
theorem digitChar_toNat : ∀ d < 10, (Nat.digitChar d).toNat = 48 + d := by decide

/-- `digitsOfChars` inverts the digit-rune rendering of a digit list. -/
theorem digitsOfChars_map (l : List Nat) (h : ∀ d ∈ l, d < 10) :
    digitsOfChars (l.map Nat.digitChar) = some l := by
  induction l with
  | nil => rfl
  | cons d rest ih =>
    have hd : d < 10 := h d (List.mem_cons_self d rest)
    have htn := digitChar_toNat d hd
    have hbounds : 48 ≤ (Nat.digitChar d).toNat ∧ (Nat.digitChar d).toNat ≤ 57 := by
      rw [htn]; omega
    rw [List.map_cons, digitsOfChars, if_pos hbounds,
      ih (fun x hx => h x (List.mem_cons_of_mem d hx))]
    rw [htn]
    simp

/-- Every rune of `natChars n` is a decimal digit rune. -/
theorem natChars_mem_digit (n : Nat) :
    ∀ c ∈ natChars n, 48 ≤ c.toNat ∧ c.toNat ≤ 57 := by
  intro c hc
  rw [natChars] at hc
  by_cases h0 : n = 0
  · rw [if_pos h0] at hc
    simp only [List.mem_singleton] at hc
    subst hc; decide
  · rw [if_neg h0] at hc
    simp only [List.mem_reverse, List.mem_map] at hc
    obtain ⟨d, hd, rfl⟩ := hc
    have hlt : d < 10 := Nat.digits_lt_base (by norm_num) hd
    rw [digitChar_toNat d hlt]; omega

/-- `natChars` never yields the empty list. -/
theorem natChars_ne_nil (n : Nat) : natChars n ≠ [] := by
  rw [natChars]
  by_cases h0 : n = 0
  · rw [if_pos h0]; simp
  · rw [if_neg h0]
    simp [Nat.digits_ne_nil_iff_ne_zero, h0]

/-- `parseNatChars` inverts `natChars`. -/
theorem parseNatChars_natChars (n : Nat) : parseNatChars (natChars n) = some n := by
  by_cases h0 : n = 0
  · subst h0; decide
  · rw [natChars, if_neg h0]
    rw [show ((Nat.digits 10 n).map Nat.digitChar).reverse =
        ((Nat.digits 10 n).reverse).map Nat.digitChar by rw [List.map_reverse]]
    have hne : (Nat.digits 10 n).reverse.map Nat.digitChar ≠ [] := by
      simp [Nat.digits_ne_nil_iff_ne_zero, h0]
    rw [parseNatChars, if_neg (by simpa using hne)]
    rw [digitsOfChars_map _
      (fun d hd => Nat.digits_lt_base (by norm_num) (List.mem_reverse.mp hd))]
    simp [Nat.ofDigits_digits]

/-- The decoder inverts the canonical duration rendering. -/
theorem parseDuration_formatDuration (d : Int) :
    parseDuration (formatDuration d) = some d := by
  have hns : "ns".toList = ['n', 's'] := rfl
  obtain ⟨c, cs1, hcs⟩ := List.exists_cons_of_ne_nil (natChars_ne_nil d.natAbs)
  have hcdig := natChars_mem_digit d.natAbs c (hcs ▸ List.mem_cons_self c cs1)
  have hcne : ¬(c = '-') := by
    intro h
    subst h
    revert hcdig
    decide
  by_cases hd : d < 0
  · rw [formatDuration, if_pos hd]
    show parseDuration (String.mk (('-' :: (natChars d.natAbs ++ "ns".toList)))) = _
    rw [parseDuration]
    simp only [hns]
    rw [show ('-' :: (natChars d.natAbs ++ ['n', 's'])) =
      (('-' :: natChars d.natAbs) ++ ['n', 's']) by simp]
    have hlen : (('-' :: natChars d.natAbs) ++ ['n', 's']).length =
        ('-' :: natChars d.natAbs).length + 2 := by simp
    rw [show (String.mk (('-' :: natChars d.natAbs) ++ ['n', 's'])).toList =
      (('-' :: natChars d.natAbs) ++ ['n', 's']) from rfl]
    rw [if_neg (by simp), hlen]
    rw [show ('-' :: natChars d.natAbs).length + 2 - 2 =
      ('-' :: natChars d.natAbs).length by omega]
    rw [List.drop_left, List.take_left, if_pos rfl]
    rw [if_pos (show ('-' :: natChars d.natAbs).head? = some '-' from rfl)]
    show (parseNatChars (natChars d.natAbs)).map (fun n => -(Int.ofNat n)) = some d
    rw [parseNatChars_natChars]
    simp only [Option.map_some', Int.ofNat_eq_natCast]
    congr 1
    omega
  · rw [formatDuration, if_neg hd]
    rw [parseDuration]
    simp only [hns]
    have hlen : ((natChars d.natAbs) ++ ['n', 's']).length =
        (natChars d.natAbs).length + 2 := by simp
    rw [show (String.mk ((natChars d.natAbs) ++ ['n', 's'])).toList =
      ((natChars d.natAbs) ++ ['n', 's']) from rfl]
    rw [if_neg (by simp), hlen]
    rw [show (natChars d.natAbs).length + 2 - 2 = (natChars d.natAbs).length by omega]
    rw [List.drop_left, List.take_left, if_pos rfl]
    have hhead : (natChars d.natAbs).head? = some c := by rw [hcs]; rfl
    rw [if_neg (by rw [hhead]; simp [hcne]), parseNatChars_natChars]
    simp only [Option.map_some', Int.ofNat_eq_natCast]
    congr 1
    omega

/-- The NullDuration JSON codec round-trips valid durations and normalises
invalid ones to the zero NullDuration. -/
theorem unmarshal_marshal_nullDuration (g : NullDuration) :
    unmarshalNullDuration (marshalNullDuration g) =
      .ok (if g.valid then g else ⟨0, false⟩) := by
  rw [marshalNullDuration]
  by_cases hv : g.valid
  · rw [if_pos hv, if_pos hv]
    rw [show unmarshalNullDuration (Json.str (formatDuration g.duration)) =
        (match parseDuration (formatDuration g.duration) with
          | some d => .ok (⟨d, true⟩ : NullDuration)
          | Option.none => .error "invalid duration string") from rfl]
    rw [parseDuration_formatDuration]
    cases g with
    | mk dur v => simp at hv; rw [hv]
  · rw [if_neg hv, if_neg hv]; rfl

/-- One config element round-trips through its JSON form, except that the
bare-string form produced when AbortOnFail is false drops the grace
period. -/
theorem config_roundtrip (tc : thresholdConfig)
    (hg : tc.AbortGracePeriod.valid = true ∨ tc.AbortGracePeriod = ⟨0, false⟩) :
    thresholdConfig.unmarshalJSON (thresholdConfig.marshalJSON tc) zeroConfig =
      .ok ⟨tc.Threshold, tc.AbortOnFail,
        if tc.AbortOnFail then tc.AbortGracePeriod else ⟨0, false⟩⟩ := by
  obtain ⟨src, aof, g⟩ := tc
  cases aof with
  | false => rfl
  | true =>
    have hstep : thresholdConfig.unmarshalJSON
        (thresholdConfig.marshalJSON ⟨src, true, g⟩) zeroConfig =
        (match unmarshalNullDuration (marshalNullDuration g) with
          | .ok dd => .ok (⟨src, true, dd⟩ : thresholdConfig)
          | .error e => .error e) := rfl
    rw [hstep, unmarshal_marshal_nullDuration]
    rcases hg with hv | hz
    · rw [if_pos (show g.valid = true from hv)]
      rfl
    · rw [show g = ⟨0, false⟩ from hz]
      rfl

/-- C6: frame conditions of the two evaluation entry points — `run` returns
exactly the `runNoTaint` pair; its only mutation is writing `LastFailed` to
the negated pass result (so `LastFailed` becomes true also when the metric
key is missing from the sinks), leaving `Source`, `AbortOnFail`,
`AbortGracePeriod` and the parsed condition unchanged.  `runNoTaint` returns
no state at all in this embedding, reflecting that it mutates nothing. -/
theorem run_frame (t : Threshold) (sinks : List (String × Rat)) :
    ((t.run sinks).1, (t.run sinks).2.1) = t.runNoTaint sinks ∧
      (t.run sinks).2.2 = { t with LastFailed := !(t.runNoTaint sinks).1 } ∧
      (t.run sinks).2.2.Source = t.Source ∧
      (t.run sinks).2.2.AbortOnFail = t.AbortOnFail ∧
      (t.run sinks).2.2.AbortGracePeriod = t.AbortGracePeriod ∧
      (t.run sinks).2.2.parsed = t.parsed ∧
      (sinks.lookup t.parsed.AggregationMethod = Option.none →
        (t.run sinks).2.2.LastFailed = true) := by
  refine ⟨rfl, rfl, rfl, rfl, rfl, rfl, fun h => ?_⟩
  have h1 : (t.runNoTaint sinks).1 = false := by
    rw [Threshold.runNoTaint, h]
  show (!(t.runNoTaint sinks).1) = true
  rw [h1]
  rfl

/-- A concrete parsed threshold used to witness the frame conditions. -/
def sampleThreshold : Threshold :=
  ⟨"rate<0.01", false, false, ⟨0, false⟩, ⟨"rate", "<", 1 / 100⟩⟩

/-- Witness for C6 on a concrete threshold and an empty sink mapping, where
the metric key is missing and `LastFailed` is set. -/
theorem run_frame_witness :
    ((sampleThreshold.run []).1, (sampleThreshold.run []).2.1) =
        sampleThreshold.runNoTaint [] ∧
      (sampleThreshold.run []).2.2 =
        { sampleThreshold with LastFailed := !(sampleThreshold.runNoTaint []).1 } ∧
      (sampleThreshold.run []).2.2.Source = sampleThreshold.Source ∧
      (sampleThreshold.run []).2.2.AbortOnFail = sampleThreshold.AbortOnFail ∧
      (sampleThreshold.run []).2.2.AbortGracePeriod = sampleThreshold.AbortGracePeriod ∧
      (sampleThreshold.run []).2.2.parsed = sampleThreshold.parsed ∧
      (List.lookup sampleThreshold.parsed.AggregationMethod
          ([] : List (String × Rat)) = Option.none →
        (sampleThreshold.run []).2.2.LastFailed = true) :=
  run_frame sampleThreshold []

/-- C7: the strict equality operator `===` evaluates exactly as the loose
`==` — for any two thresholds agreeing on aggregation method and value whose
operators are `===` and `==`, `runNoTaint` returns identical results on
every sink mapping (the left side is always a float64, here a rational). -/
theorem strict_equals_loose (src1 src2 : String) (lf1 lf2 aof1 aof2 : Bool)
    (g1 g2 : NullDuration) (m : String) (v : Rat) (sinks : List (String × Rat)) :
    Threshold.runNoTaint ⟨src1, lf1, aof1, g1, ⟨m, "===", v⟩⟩ sinks =
      Threshold.runNoTaint ⟨src2, lf2, aof2, g2, ⟨m, "==", v⟩⟩ sinks := by
  rw [Threshold.runNoTaint, Threshold.runNoTaint]
  cases sinks.lookup m with
  | none => rfl
  | some lhs => simp

/-- C9: atomicity of Thresholds JSON decoding — whenever UnmarshalJSON
returns an error the receiver is unchanged; malformed JSON (the number 42,
which is no config array) and an array holding the unparseable threshold
source "=" both error out, so in particular a zero-valued aggregate stays at
its zero value on those inputs. -/
theorem unmarshal_error_leaves_receiver (ts : K6.Thresholds) (data : Json) :
    ((Thresholds.unmarshalJSON data ts).1.isSome = true →
        (Thresholds.unmarshalJSON data ts).2 = ts) ∧
      (Thresholds.unmarshalJSON (Json.num 42) ts).1.isSome = true ∧
      (Thresholds.unmarshalJSON (Json.num 42) ts).2 = ts ∧
      (Thresholds.unmarshalJSON (Json.arr [Json.str "="]) ts).1.isSome = true ∧
      (Thresholds.unmarshalJSON (Json.arr [Json.str "="]) ts).2 = ts := by
  refine ⟨fun h => ?_, rfl, rfl, rfl, rfl⟩
  rw [Thresholds.unmarshalJSON] at h ⊢
  cases hd : decodeConfigs data with
  | error e => rfl
  | ok cfgs =>
    rw [hd] at h
    change (match newThresholdsWithConfig cfgs with
      | Except.error e => (some e, ts)
      | Except.ok newts => ((Option.none : Option String), newts)).2 = ts
    change (match newThresholdsWithConfig cfgs with
      | Except.error e => (some e, ts)
      | Except.ok newts => ((Option.none : Option String), newts)).1.isSome = true at h
    cases hc : newThresholdsWithConfig cfgs with
    | error e => rfl
    | ok ts2 =>
      rw [hc] at h
      simp at h

/-- Witness for C9 at the zero-valued aggregate and the malformed input 42:
the error is reported and the aggregate stays zero. -/
theorem unmarshal_error_leaves_receiver_witness :
    ((Thresholds.unmarshalJSON (Json.num 42) ⟨[], false, []⟩).1.isSome = true →
        (Thresholds.unmarshalJSON (Json.num 42) ⟨[], false, []⟩).2 = ⟨[], false, []⟩) ∧
      (Thresholds.unmarshalJSON (Json.num 42) ⟨[], false, []⟩).1.isSome = true ∧
      (Thresholds.unmarshalJSON (Json.num 42) ⟨[], false, []⟩).2 = ⟨[], false, []⟩ ∧
      (Thresholds.unmarshalJSON (Json.arr [Json.str "="]) ⟨[], false, []⟩).1.isSome = true ∧
      (Thresholds.unmarshalJSON (Json.arr [Json.str "="]) ⟨[], false, []⟩).2 =
        ⟨[], false, []⟩ :=
  unmarshal_error_leaves_receiver ⟨[], false, []⟩ (Json.num 42)

/-- C8: operator tie-break in ParseOperator — an input beginning with a long
operator is never parsed as one of its proper prefixes: `>=`, `<=` and `===`
win over `>`, `<` and `==` on every continuation of the input, with exactly
the operator's runes consumed; and each of the seven operators parses as
itself. -/
theorem parseOperator_tiebreak (rest : List Char) :
    ParseOperator ('>' :: '=' :: rest) = success (PValue.str ">=") rest ∧
      ParseOperator ('<' :: '=' :: rest) = success (PValue.str "<=") rest ∧
      ParseOperator ('=' :: '=' :: '=' :: rest) = success (PValue.str "===") rest ∧
      ParseOperator ('!' :: '=' :: rest) = success (PValue.str "!=") rest ∧
      ParseOperator (">".toList) = success (PValue.str ">") [] ∧
      ParseOperator ("<".toList) = success (PValue.str "<") [] ∧
      ParseOperator ("==".toList) = success (PValue.str "==") [] ∧
      ParseOperator (">=".toList) = success (PValue.str ">=") [] ∧
      ParseOperator ("<=".toList) = success (PValue.str "<=") [] ∧
      ParseOperator ("===".toList) = success (PValue.str "===") [] ∧
      ParseOperator ("!=".toList) = success (PValue.str "!=") [] := by
  refine ⟨?_, ?_, ?_, ?_, rfl, rfl, rfl, rfl, rfl, rfl, rfl⟩ <;>
    simp [ParseOperator, Expect, K6.Alternative, altAux, Tag, success, K6.failure,
      List.isPrefixOf]

/-- A threshold run that reports an error also reports a false pass result
(both the metric-missing and the invalid-operator branches return false). -/
theorem runNoTaint_err_false (t : Threshold) (sinks : List (String × Rat))
    (e : ThresholdError) (h : (t.runNoTaint sinks).2 = some e) :
    (t.runNoTaint sinks).1 = false := by
  rw [Threshold.runNoTaint] at h ⊢
  cases hl : sinks.lookup t.parsed.AggregationMethod with
  | none => simp [hl]
  | some lhs =>
    split_ifs at h ⊢ <;> simp_all

/-- The first evaluation error among the thresholds, in declaration order,
paired with its index. -/
def firstError (sinked : List (String × Rat)) :
    List Threshold → Nat → Option (Nat × ThresholdError)
  | [], _ => Option.none
  | t :: rest, i =>
    match (t.runNoTaint sinked).2 with
    | some e => some (i, e)
    | Option.none => firstError sinked rest (i + 1)

/-- The loop of runAll returns the conjunction of the pass results of all
thresholds (continued from the accumulator) and the first error in
declaration order. -/
theorem runAllAux_spec (sinked : List (String × Rat)) (duration : Int)
    (l : List Threshold) :
    ∀ (abort succeeded : Bool) (i : Nat),
      (runAllAux sinked duration l abort succeeded i).2.2.1 =
          (succeeded && l.all (fun t => (t.runNoTaint sinked).1)) ∧
        (runAllAux sinked duration l abort succeeded i).2.2.2 =
          firstError sinked l i := by
  induction l with
  | nil =>
    intro abort succeeded i
    simp [runAllAux, firstError]
  | cons t rest ih =>
    intro abort succeeded i
    rw [runAllAux, firstError]
    have hr2 : (t.run sinked).2.1 = (t.runNoTaint sinked).2 := rfl
    have hr1 : (t.run sinked).1 = (t.runNoTaint sinked).1 := rfl
    rw [hr2]
    cases he : (t.runNoTaint sinked).2 with
    | some e =>
      have hp := runNoTaint_err_false t sinked e he
      simp [List.all_cons, hp]
    | none =>
      rw [hr1]
      cases hp : (t.runNoTaint sinked).1 with
      | true => simp [List.all_cons, hp, ih abort succeeded (i + 1)]
      | false =>
        simp only [List.all_cons, hp, Bool.false_and, Bool.and_false, if_false,
          Bool.false_eq_true]
        refine ⟨(ih _ false (i + 1)).1.trans (by simp), (ih _ false (i + 1)).2⟩

/-- C4: Thresholds.Run (through runAll) evaluates the thresholds in
declaration order — the loop recurses over them left to right — and the
boolean it returns is the conjunction of the individual pass results, while
the error it returns is the first error in declaration order, if any.  (A
run that errors stops the loop and returns false; since the erroring
threshold's own pass result is false, the returned boolean still equals the
conjunction.) -/
theorem Run_conjunction_first_error (ts : K6.Thresholds)
    (formatted : List (String × Rat)) (duration : Int) :
    (ts.Run formatted duration).2.1 =
        ts.Thresholds.all (fun t => (t.runNoTaint formatted).1) ∧
      (ts.Run formatted duration).2.2 = firstError formatted ts.Thresholds 0 ∧
      (ts.runAll duration).2.1 =
        ts.Thresholds.all (fun t => (t.runNoTaint ts.sinked).1) ∧
      (ts.runAll duration).2.2 = firstError ts.sinked ts.Thresholds 0 := by
  have h1 := runAllAux_spec formatted duration ts.Thresholds ts.Abort true 0
  have h2 := runAllAux_spec ts.sinked duration ts.Thresholds ts.Abort true 0
  refine ⟨?_, ?_, ?_, ?_⟩
  · rw [show (ts.Run formatted duration).2.1 =
      (runAllAux formatted duration ts.Thresholds ts.Abort true 0).2.2.1 from rfl, h1.1]
    simp
  · rw [show (ts.Run formatted duration).2.2 =
      (runAllAux formatted duration ts.Thresholds ts.Abort true 0).2.2.2 from rfl, h1.2]
  · rw [show (ts.runAll duration).2.1 =
      (runAllAux ts.sinked duration ts.Thresholds ts.Abort true 0).2.2.1 from rfl, h2.1]
    simp
  · rw [show (ts.runAll duration).2.2 =
      (runAllAux ts.sinked duration ts.Thresholds ts.Abort true 0).2.2.2 from rfl, h2.2]

/-- Once the abort flag enters the loop as true, it leaves the loop true. -/
theorem runAllAux_abort_mono (sinked : List (String × Rat)) (duration : Int)
    (l : List Threshold) :
    ∀ (succeeded : Bool) (i : Nat),
      (runAllAux sinked duration l true succeeded i).2.1 = true := by
  induction l with
  | nil => intro s i; rfl
  | cons t rest ih =>
    intro s i
    rw [runAllAux]
    rw [show (t.run sinked).2.1 = (t.runNoTaint sinked).2 from rfl]
    cases he : (t.runNoTaint sinked).2 with
    | some e => rfl
    | none =>
      rw [show (t.run sinked).1 = (t.runNoTaint sinked).1 from rfl]
      cases hp : (t.runNoTaint sinked).1 with
      | true => exact ih s (i + 1)
      | false =>
        show (runAllAux sinked duration rest true false (i + 1)).2.1 = true
        exact ih false (i + 1)

/-- A sequence of Run calls, each with its formatted sink values and its
duration. -/
def runSequence : K6.Thresholds → List (List (String × Rat) × Int) → K6.Thresholds
  | ts, [] => ts
  | ts, (fm, d) :: rest => runSequence (ts.Run fm d).1 rest

/-- The abort flag is monotone across any sequence of Run calls. -/
theorem runSequence_abort_mono (calls : List (List (String × Rat) × Int)) :
    ∀ ts : K6.Thresholds, ts.Abort = true → (runSequence ts calls).Abort = true := by
  induction calls with
  | nil => intro ts h; exact h
  | cons c rest ih =>
    intro ts h
    obtain ⟨fm, d⟩ := c
    rw [runSequence]
    apply ih
    show (runAllAux fm d ts.Thresholds ts.Abort true 0).2.1 = true
    rw [h]
    exact runAllAux_abort_mono fm d ts.Thresholds true 0

/-- C3: abort latching.  Over any sequence of Run or runAll calls, once
Abort is true it never becomes false again.  On a run in which a threshold
fails (pass false, no error) while Abort is not yet latched: if the
threshold has AbortOnFail, Abort is set exactly to the value of
"grace period invalid, or its duration strictly below the run's duration";
if it does not have AbortOnFail, Abort is left unchanged (false). -/
theorem abort_latching (ts : K6.Thresholds)
    (calls : List (List (String × Rat) × Int)) (duration : Int)
    (t t2 : Threshold) (sinked : List (String × Rat))
    (habort : ts.Abort = true)
    (hfail : t.runNoTaint sinked = (false, Option.none))
    (haof : t.AbortOnFail = true)
    (hfail2 : t2.runNoTaint sinked = (false, Option.none))
    (haof2 : t2.AbortOnFail = false) :
    (runSequence ts calls).Abort = true ∧
      (ts.runAll duration).1.Abort = true ∧
      (Thresholds.runAll ⟨[t], false, sinked⟩ duration).1.Abort =
        (!t.AbortGracePeriod.valid ||
          decide (t.AbortGracePeriod.duration < duration)) ∧
      (Thresholds.runAll ⟨[t2], false, sinked⟩ duration).1.Abort = false := by
  refine ⟨runSequence_abort_mono calls ts habort, ?_, ?_, ?_⟩
  · show (runAllAux ts.sinked duration ts.Thresholds ts.Abort true 0).2.1 = true
    rw [habort]
    exact runAllAux_abort_mono ts.sinked duration ts.Thresholds true 0
  · show (runAllAux sinked duration [t] false true 0).2.1 = _
    rw [runAllAux]
    rw [show (t.run sinked).2.1 = (t.runNoTaint sinked).2 from rfl,
      show (t.run sinked).1 = (t.runNoTaint sinked).1 from rfl, hfail]
    simp only [haof, Bool.not_true, Bool.or_false, Bool.false_or]
    rfl
  · show (runAllAux sinked duration [t2] false true 0).2.1 = _
    rw [runAllAux]
    rw [show (t2.run sinked).2.1 = (t2.runNoTaint sinked).2 from rfl,
      show (t2.run sinked).1 = (t2.runNoTaint sinked).1 from rfl, hfail2]
    simp only [haof2, Bool.not_false, Bool.or_true, Bool.false_or]
    rfl

/-- A failing threshold with AbortOnFail and a one-second grace period. -/
def abortingThreshold : Threshold :=
  ⟨"rate<5", false, true, ⟨1000000000, true⟩, ⟨"rate", "<", 5⟩⟩

/-- The same failing threshold without AbortOnFail. -/
def nonAbortingThreshold : Threshold :=
  ⟨"rate<5", false, false, ⟨1000000000, true⟩, ⟨"rate", "<", 5⟩⟩

/-- Witness for C3: a latched aggregate stays latched across a Run call, a
failing abort-on-fail threshold with a 1s grace latches at a 1.5s run, and
the same threshold without AbortOnFail leaves the flag unlatched. -/
theorem abort_latching_witness :
    (⟨[], true, []⟩ : K6.Thresholds).Abort = true ∧
      abortingThreshold.runNoTaint [("rate", 10)] = (false, Option.none) ∧
      abortingThreshold.AbortOnFail = true ∧
      nonAbortingThreshold.runNoTaint [("rate", 10)] = (false, Option.none) ∧
      nonAbortingThreshold.AbortOnFail = false ∧
      ((runSequence ⟨[], true, []⟩ [([("rate", 10)], 5)]).Abort = true ∧
        ((⟨[], true, []⟩ : K6.Thresholds).runAll 1500000000).1.Abort = true ∧
        (Thresholds.runAll ⟨[abortingThreshold], false, [("rate", 10)]⟩
            1500000000).1.Abort =
          (!abortingThreshold.AbortGracePeriod.valid ||
            decide (abortingThreshold.AbortGracePeriod.duration < 1500000000)) ∧
        (Thresholds.runAll ⟨[nonAbortingThreshold], false, [("rate", 10)]⟩
            1500000000).1.Abort = false) :=
  ⟨rfl, by rfl, rfl, by rfl, rfl,
    abort_latching ⟨[], true, []⟩ [([("rate", 10)], 5)] 1500000000
      abortingThreshold nonAbortingThreshold [("rate", 10)]
      rfl (by rfl) rfl (by rfl) rfl⟩

/-- Decoding the marshalled configs of a threshold list succeeds, giving back
each config with its grace period intact when AbortOnFail is set and reset to
the zero duration otherwise (the bare-string Form A has no grace field). -/
theorem decode_marshalled (l : List Threshold)
    (hg : ∀ t ∈ l, t.AbortGracePeriod.valid = true ∨ t.AbortGracePeriod = ⟨0, false⟩) :
    decodeConfigsAux (l.map (fun t =>
        thresholdConfig.marshalJSON ⟨t.Source, t.AbortOnFail, t.AbortGracePeriod⟩)) =
      .ok (l.map (fun t =>
        (⟨t.Source, t.AbortOnFail,
          if t.AbortOnFail then t.AbortGracePeriod else ⟨0, false⟩⟩ : thresholdConfig))) := by
  induction l with
  | nil => rfl
  | cons t rest ih =>
    rw [List.map_cons, decodeConfigsAux,
      config_roundtrip ⟨t.Source, t.AbortOnFail, t.AbortGracePeriod⟩
        (hg t (List.mem_cons_self t rest)),
      ih (fun x hx => hg x (List.mem_cons_of_mem t hx))]
    rfl

/-- Construction from configs with parseable sources succeeds, with
LastFailed false and the other fields taken from the configs. -/
theorem newThresholdsAux_fields (cfgs : List thresholdConfig) :
    ∀ i : Nat, (∀ c ∈ cfgs, (parseThresholdCondition c.Threshold).isOk = true) →
      ∃ l2 : List Threshold, newThresholdsAux cfgs i = .ok l2 ∧
        l2.map (fun t => (t.Source, t.LastFailed, t.AbortOnFail, t.AbortGracePeriod)) =
          cfgs.map (fun c => (c.Threshold, false, c.AbortOnFail, c.AbortGracePeriod)) := by
  induction cfgs with
  | nil => intro i _; exact ⟨[], rfl, rfl⟩
  | cons c rest ih =>
    intro i h
    have hc := h c (List.mem_cons_self c rest)
    obtain ⟨cond, hcond⟩ : ∃ v, parseThresholdCondition c.Threshold = .ok v := by
      cases hp : parseThresholdCondition c.Threshold with
      | ok v => exact ⟨v, rfl⟩
      | error e =>
        rw [hp] at hc
        exact absurd hc Bool.false_ne_true
    obtain ⟨l2, hl2, hmap⟩ := ih (i + 1) (fun x hx => h x (List.mem_cons_of_mem c hx))
    refine ⟨⟨c.Threshold, false, c.AbortOnFail, c.AbortGracePeriod, cond⟩ :: l2, ?_, ?_⟩
    · rw [newThresholdsAux, newThreshold, hcond, hl2]
    · rw [List.map_cons, List.map_cons, hmap]

/-- C2 amended: JSON round-trip of a Thresholds aggregate built from valid
configs.  Marshalling yields the bare source string exactly when AbortOnFail
is false and the object form otherwise; unmarshalling the output succeeds
and preserves Source and AbortOnFail of every threshold, and preserves
AbortGracePeriod whenever AbortOnFail is true, while a threshold marshalled
in the bare-string form comes back with the null grace period; LastFailed
and Abort are runtime state and come back false. -/
theorem thresholds_json_roundtrip (ts prior : K6.Thresholds)
    (hparse : ∀ t ∈ ts.Thresholds, (parseThresholdCondition t.Source).isOk = true)
    (hg : ∀ t ∈ ts.Thresholds,
      t.AbortGracePeriod.valid = true ∨ t.AbortGracePeriod = ⟨0, false⟩) :
    Thresholds.marshalJSON ts = Json.arr (ts.Thresholds.map (fun t =>
        if t.AbortOnFail then
          Json.obj [("threshold", Json.str t.Source),
            ("abortOnFail", Json.bool t.AbortOnFail),
            ("delayAbortEval", marshalNullDuration t.AbortGracePeriod)]
        else Json.str t.Source)) ∧
      (Thresholds.unmarshalJSON (Thresholds.marshalJSON ts) prior).1 = Option.none ∧
      (Thresholds.unmarshalJSON (Thresholds.marshalJSON ts) prior).2.Abort = false ∧
      (Thresholds.unmarshalJSON (Thresholds.marshalJSON ts) prior).2.Thresholds.map
          (fun t => (t.Source, t.AbortOnFail)) =
        ts.Thresholds.map (fun t => (t.Source, t.AbortOnFail)) ∧
      (Thresholds.unmarshalJSON (Thresholds.marshalJSON ts) prior).2.Thresholds.map
          (fun t => t.AbortGracePeriod) =
        ts.Thresholds.map
          (fun t => if t.AbortOnFail then t.AbortGracePeriod else ⟨0, false⟩) ∧
      (Thresholds.unmarshalJSON (Thresholds.marshalJSON ts) prior).2.Thresholds.map
          (fun t => t.LastFailed) =
        ts.Thresholds.map (fun _ => false) := by
  have hcfg := decode_marshalled ts.Thresholds hg
  have hparse2 : ∀ c ∈ ts.Thresholds.map (fun t =>
      (⟨t.Source, t.AbortOnFail,
        if t.AbortOnFail then t.AbortGracePeriod else ⟨0, false⟩⟩ : thresholdConfig)),
      (parseThresholdCondition c.Threshold).isOk = true := by
    intro c hcm
    obtain ⟨t, ht, rfl⟩ := List.mem_map.mp hcm
    exact hparse t ht
  obtain ⟨l2, hl2, hmap⟩ := newThresholdsAux_fields _ 0 hparse2
  have hunm : Thresholds.unmarshalJSON (Thresholds.marshalJSON ts) prior =
      (Option.none, ⟨l2, false, []⟩) := by
    rw [Thresholds.unmarshalJSON]
    rw [show decodeConfigs (Thresholds.marshalJSON ts) =
        decodeConfigsAux (ts.Thresholds.map (fun t =>
          thresholdConfig.marshalJSON
            ⟨t.Source, t.AbortOnFail, t.AbortGracePeriod⟩)) from rfl]
    rw [hcfg]
    show (match newThresholdsWithConfig (ts.Thresholds.map _) with
      | Except.error e => (some e, prior)
      | Except.ok newts => ((Option.none : Option String), newts)) = _
    rw [newThresholdsWithConfig, hl2]
  refine ⟨rfl, ?_, ?_, ?_, ?_, ?_⟩
  · rw [hunm]
  · rw [hunm]
  · rw [hunm]
    have h1 := congrArg
      (List.map (fun q : String × Bool × Bool × NullDuration => (q.1, q.2.2.1))) hmap
    simp only [List.map_map] at h1
    exact h1
  · rw [hunm]
    have h1 := congrArg
      (List.map (fun q : String × Bool × Bool × NullDuration => q.2.2.2)) hmap
    simp only [List.map_map] at h1
    exact h1
  · rw [hunm]
    have h1 := congrArg
      (List.map (fun q : String × Bool × Bool × NullDuration => q.2.1)) hmap
    simp only [List.map_map] at h1
    exact h1

/-- The aggregate exhibiting the C2 counterexample: one threshold with
AbortOnFail false but a valid two-second grace period, built by the public
constructor. -/
def graceNoAbortThresholds : K6.Thresholds :=
  match newThresholdsWithConfig [⟨"rate<5", false, ⟨2000000000, true⟩⟩] with
  | .ok ts => ts
  | .error _ => ⟨[], true, []⟩

/-- C2 counterexample: the claim as stated fails.  An aggregate built from
the valid config (source "rate<5", AbortOnFail false, valid 2s grace
period) marshals its element as the bare source string (Form A), and
unmarshalling that output yields a threshold whose AbortGracePeriod is the
null duration rather than the original valid 2s one. -/
theorem json_roundtrip_grace_counterexample :
    (newThresholdsWithConfig [⟨"rate<5", false, ⟨2000000000, true⟩⟩]).isOk = true ∧
      graceNoAbortThresholds.Thresholds.map
          (fun t => (t.Source, t.AbortOnFail, t.AbortGracePeriod)) =
        [("rate<5", false, (⟨2000000000, true⟩ : NullDuration))] ∧
      Thresholds.marshalJSON graceNoAbortThresholds = Json.arr [Json.str "rate<5"] ∧
      (Thresholds.unmarshalJSON (Thresholds.marshalJSON graceNoAbortThresholds)
          ⟨[], false, []⟩).1 = Option.none ∧
      (Thresholds.unmarshalJSON (Thresholds.marshalJSON graceNoAbortThresholds)
          ⟨[], false, []⟩).2.Thresholds.map (fun t => t.AbortGracePeriod) =
        [⟨0, false⟩] ∧
      ¬ ((⟨0, false⟩ : NullDuration) = ⟨2000000000, true⟩) :=
  ⟨by rfl, by rfl, by rfl, by rfl, by rfl, by decide⟩

/-- Witness for the amended C2 round-trip at a concrete aggregate holding
one abort-on-fail threshold with a valid two-second grace period. -/
theorem thresholds_json_roundtrip_witness :
    (∀ t ∈ (⟨[⟨"rate<5", false, true, ⟨2000000000, true⟩, ⟨"rate", "<", 5⟩⟩], false,
        []⟩ : K6.Thresholds).Thresholds,
      (parseThresholdCondition t.Source).isOk = true) ∧
    (∀ t ∈ (⟨[⟨"rate<5", false, true, ⟨2000000000, true⟩, ⟨"rate", "<", 5⟩⟩], false,
        []⟩ : K6.Thresholds).Thresholds,
      t.AbortGracePeriod.valid = true ∨ t.AbortGracePeriod = ⟨0, false⟩) ∧
    ((Thresholds.unmarshalJSON
        (Thresholds.marshalJSON ⟨[⟨"rate<5", false, true, ⟨2000000000, true⟩,
          ⟨"rate", "<", 5⟩⟩], false, []⟩) ⟨[], false, []⟩).1 = Option.none ∧
      (Thresholds.unmarshalJSON
        (Thresholds.marshalJSON ⟨[⟨"rate<5", false, true, ⟨2000000000, true⟩,
          ⟨"rate", "<", 5⟩⟩], false, []⟩) ⟨[], false, []⟩).2.Thresholds.map
          (fun t => t.AbortGracePeriod) = [⟨2000000000, true⟩]) := by
  have hparse : ∀ t ∈ (⟨[⟨"rate<5", false, true, ⟨2000000000, true⟩,
      ⟨"rate", "<", 5⟩⟩], false, []⟩ : K6.Thresholds).Thresholds,
      (parseThresholdCondition t.Source).isOk = true := by
    intro t ht
    simp only [List.mem_singleton] at ht
    subst ht
    rfl
  have hg : ∀ t ∈ (⟨[⟨"rate<5", false, true, ⟨2000000000, true⟩,
      ⟨"rate", "<", 5⟩⟩], false, []⟩ : K6.Thresholds).Thresholds,
      t.AbortGracePeriod.valid = true ∨ t.AbortGracePeriod = ⟨0, false⟩ := by
    intro t ht
    simp only [List.mem_singleton] at ht
    subst ht
    exact Or.inl rfl
  have h := thresholds_json_roundtrip
    ⟨[⟨"rate<5", false, true, ⟨2000000000, true⟩, ⟨"rate", "<", 5⟩⟩], false, []⟩
    ⟨[], false, []⟩ hparse hg
  refine ⟨hparse, hg, h.2.1, ?_⟩
  rw [h.2.2.2.2.1]
  rfl

end K6
